import Mathlib

/-!
Shallow embedding of the email controller module
(src/server/controllers/emails.js) of the AI-Email project.

JavaScript strings are modelled as Lean `String` where only equality
matters, and as `List Char` where the code manipulates characters
(splitting the generated content on newlines).  JavaScript values that can
flow through the cache are modelled by `JSVal`, with JS truthiness made
explicit, because the cache-hit test on line 33 is a truthiness test.

External collaborators (the company-info HTTP API, the completion API and
the mail transport) are modelled by oracles passed as arguments: a list or
function giving the outcome of each external call, in the order the calls
are made.  Time is an explicit natural-number parameter `now`; the
NodeCache instance (stdTTL 3600, line 26) is a list of
(key, value, expiry) triples threaded through the functions.
-/

/-- A JavaScript value as it can appear as cached company info or as the
`data` of an axios response.  Non-primitive values (objects, arrays) are
always truthy; their contents never matter to the controller, so they are
abstracted as an opaque tag. -/
inductive JSVal where
  | null
  | undef
  | bool (b : Bool)
  | num (n : Int)
  | str (s : List Char)
  | obj (tag : Nat)
deriving DecidableEq

/-- JavaScript truthiness of a `JSVal`. -/
def JSVal.truthy : JSVal → Bool
  | .null => false
  | .undef => false
  | .bool b => b
  | .num n => n != 0
  | .str s => s != []
  | .obj _ => true

/-- Truthiness of the result of `cache.get`: a miss yields `undefined`,
which is falsy. -/
def optTruthy : Option JSVal → Bool
  | some v => v.truthy
  | none => false

/-- The NodeCache store: (key, value, expiry-time) triples.  `cacheSet`
conses, so the most recent entry for a key shadows older ones. -/
abbrev CacheStore := List (String × JSVal × Nat)

/-- `cache.get(key)` at time `now`: the most recent entry for `key`, unless
it has expired (NodeCache treats an entry as expired when its stored
expiry time is strictly in the past). -/
def cacheGet (now : Nat) (cache : CacheStore) (key : String) : Option JSVal :=
  match cache.find? (fun e => e.1 = key) with
  | some (_, v, exp) => if exp < now then none else some v
  | none => none

/-- `cache.set(key, v)` at time `now` with the fixed stdTTL of 3600
seconds (emails.js line 26): stores `v` under `key` with expiry
`now + 3600`, overwriting (by shadowing) any previous entry. -/
def cacheSet (now : Nat) (cache : CacheStore) (key : String) (v : JSVal) : CacheStore :=
  (key, v, now + 3600) :: cache

/-- Result of one invocation of `fetchCompanyInfo`: the returned value,
the cache after the call, and the number of external (axios) calls
issued. -/
structure FetchResult where
  value : JSVal
  cache : CacheStore
  calls : Nat
deriving DecidableEq

/-- Embedding of `fetchCompanyInfo` (emails.js lines 29-54).

`oracle` gives the outcomes of the successive external GET requests:
`some v` means the request succeeds with response data `v`, `none` (or an
exhausted list) means it throws.  The function follows the source:

1. `cache.get` with key `"company:" + companyName`; if the result is
   truthy it is returned with no external call (lines 32-33);
2. otherwise one external GET is issued (line 36); on success the data is
   stored in the cache and returned (lines 37-40);
3. on failure, if `retries > 0` the whole function recurses with
   `retries - 1` (line 46), else it returns `null` (line 52). -/
def fetchCompanyInfo (companyName : String) (retries : Nat) (now : Nat)
    (cache : CacheStore) (oracle : List (Option JSVal)) : FetchResult :=
  let cachedInfo := cacheGet now cache ("company:" ++ companyName)
  if optTruthy cachedInfo then
    ⟨cachedInfo.getD JSVal.null, cache, 0⟩
  else
    match oracle with
    | some companyInfo :: _ =>
      ⟨companyInfo, cacheSet now cache ("company:" ++ companyName) companyInfo, 1⟩
    | _ =>
      match retries with
      | Nat.succ r =>
        let retried := fetchCompanyInfo companyName r now cache oracle.tail
        ⟨retried.value, retried.cache, retried.calls + 1⟩
      | 0 => ⟨JSVal.null, cache, 1⟩

/-- Characters removed from both ends by JavaScript `String.trim`
(restricted to the whitespace characters that can occur here). -/
def isJsSpace (c : Char) : Bool :=
  c = ' ' || c = '\t' || c = '\n' || c = '\r'

/-- JavaScript `s.trim()` on a string modelled as a character list. -/
def jsTrim (s : List Char) : List Char :=
  ((s.dropWhile isJsSpace).reverse.dropWhile isJsSpace).reverse

/-- One recipient of the generate-emails request body. -/
structure Recipient where
  email : String
  companyName : String
  description : String
deriving DecidableEq

/-- One element of the `emails` array: the shape produced by the generate
endpoint and consumed by the send endpoint.  `content` is a character
list because the sender splits it on newlines. -/
structure GeneratedEmail where
  email : String
  content : List Char
deriving DecidableEq

/-- Embedding of `generateEmailContent` (emails.js lines 57-95).  The
prompt built on lines 59-78 from `recipient` and `companyInfo` is sent to
the external completion API and does not influence the returned value,
which depends only on the completion outcome; `outcome` is the oracle for
that single external call: `some text` means the API replied with `text`,
`none` means the call threw.  On success the code returns the trimmed
completion text (line 90); on any error it throws
`Error("Failed to generate email")` (line 93). -/
def generateEmailContent (recipient : Recipient) (companyInfo : JSVal)
    (outcome : Option (List Char)) : Except String (List Char) :=
  match outcome with
  | some text => .ok (jsTrim text)
  | none => .error "Failed to generate email"

/-- JavaScript `content.split("\n")` on a character list: the segments of
`l` between newline characters (always at least one segment, possibly
empty, exactly as in JS). -/
def splitOnNl : List Char → List (List Char)
  | [] => [[]]
  | c :: rest =>
    if c = '\n' then [] :: splitOnNl rest
    else (c :: (splitOnNl rest).headD []) :: (splitOnNl rest).tail

/-- JavaScript `parts.join("\n")`. -/
def joinNl : List (List Char) → List Char
  | [] => []
  | [s] => s
  | s :: rest => s ++ '\n' :: joinNl rest

/-- The nodemailer mail options built for one `GeneratedEmail`
(emails.js lines 140-145).  The source field names `from` and `to` are
Lean keywords, hence `fromAddr` and `toAddr`. -/
structure MailOptions where
  fromAddr : String
  toAddr : String
  subject : List Char
  text : List Char
deriving DecidableEq

/-- Embedding of the per-email mail-option construction in `emailSending`
(emails.js lines 136-145): `from` is the hard-coded literal
`"your-email@gmail.com"`, `to` is the recipient address, the subject is
`content.split("\n")[0]` and the body is
`content.split("\n").slice(1).join("\n")`. -/
def mailOptionsOf (e : GeneratedEmail) : MailOptions :=
  { fromAddr := "your-email@gmail.com"
    toAddr := e.email
    subject := (splitOnNl e.content).headD []
    text := joinNl ((splitOnNl e.content).drop 1) }

/-- Environment configuration read at module load (emails.js lines 17-23):
the transporter credentials.  It is carried through the sender model to
make explicit that the dispatched mail options do not depend on it. -/
structure Env where
  EMAIL_SENDER : Option String
  EMAIL_PASS : Option String
deriving DecidableEq

/-- Body of an HTTP response produced by the two controllers. -/
inductive RespBody where
  | error (msg : String)
  | message (msg : String)
  | emails (es : List GeneratedEmail)
deriving DecidableEq

/-- An HTTP response: status code and JSON body. -/
structure HttpResponse where
  status : Nat
  body : RespBody
deriving DecidableEq

/-- The `emails` field of the send-emails request body, as destructured on
line 128: absent (undefined), present but not an array, or an array of
email objects. -/
inductive EmailsField where
  | undef
  | nonList (v : JSVal)
  | arr (es : List GeneratedEmail)
deriving DecidableEq

/-- JavaScript truthiness of the `emails` field (`!emails` on line 130). -/
def EmailsField.jsTruthy : EmailsField → Bool
  | .undef => false
  | .nonList v => v.truthy
  | .arr _ => true

/-- `Array.isArray(emails)` (line 130). -/
def EmailsField.isArray : EmailsField → Bool
  | .arr _ => true
  | _ => false

/-- The sequential send loop of `emailSending` (emails.js lines 136-150).
`transport i` is the oracle for the i-th `transporter.sendMail` call:
`true` means it resolves, `false` means it throws.  Returns the mail
options of every dispatched call, in dispatch order (the failing call
included: `sendMail` was invoked for it), and whether the loop completed
without a failure.  On the first failure the loop is abandoned: the
exception propagates to the catch on line 154. -/
def sendLoop (transport : Nat → Bool) : Nat → List GeneratedEmail → List MailOptions × Bool
  | _, [] => ([], true)
  | i, e :: rest =>
    let mo := mailOptionsOf e
    if transport i then
      let r := sendLoop transport (i + 1) rest
      (mo :: r.1, r.2)
    else ([mo], false)

/-- Result of the send-emails controller: the HTTP response and the mail
options of every transport call that was dispatched. -/
structure SendResult where
  resp : HttpResponse
  dispatched : List MailOptions
deriving DecidableEq

/-- Embedding of `emailSending` (emails.js lines 127-158).  Validation
(lines 130-132): 400 when `emails` is falsy or not an array.  Otherwise
the emails are sent strictly sequentially; if all succeed the response is
200 with "Emails sent successfully!" (line 153), and the first failure
aborts the loop and yields 500 with "Failed to send emails." (line 156).
`env` is the ambient transporter configuration; it feeds only the
transporter credentials, never the mail options. -/
def emailSending (env : Env) (emails : EmailsField) (transport : Nat → Bool) : SendResult :=
  if !emails.jsTruthy || !emails.isArray then
    ⟨⟨400, .error "Invalid email data format."⟩, []⟩
  else
    match emails with
    | .arr es =>
      let r := sendLoop transport 0 es
      if r.2 then ⟨⟨200, .message "Emails sent successfully!"⟩, r.1⟩
      else ⟨⟨500, .error "Failed to send emails."⟩, r.1⟩
    | _ => ⟨⟨400, .error "Invalid email data format."⟩, []⟩

/-- The `recipients` field of the generate-emails request body, as
destructured on line 98: absent or undefined, or an array of recipients.
(A truthy non-array value is not modelled; no claim concerns it.) -/
inductive RecipientsField where
  | undef
  | arr (rs : List Recipient)
deriving DecidableEq

/-- Accumulated result of running every recipient pipeline: the
per-recipient settled promises in input order, the cache after all
pipelines ran, and the total number of external calls issued (company-info
GET requests plus one completion call per recipient). -/
structure PipelinesResult where
  results : List (Except String GeneratedEmail)
  cache : CacheStore
  calls : Nat

/-- The per-recipient pipelines of `generateEmailController`
(emails.js lines 105-116): for recipient `i`, `fetchCompanyInfo` with the
default 3 retries, then `generateEmailContent` on the (possibly null)
company info, yielding the promise settling to
`{email: recipient.email, content}` or rejecting.  In the source the
pipelines run concurrently; each pipeline's own outcome is fixed by the
per-recipient oracles `fetchOracle i` and `genOracle i`, so the settled
values do not depend on the interleaving, and the model linearises the
shared-cache effects in input order.  Every pipeline runs to completion
(`Promise.all` does not cancel the others on a rejection), so all the
external calls are counted. -/
def runPipelines (now : Nat) (genOracle : Nat → Option (List Char))
    (fetchOracle : Nat → List (Option JSVal)) :
    Nat → CacheStore → List Recipient → PipelinesResult
  | _, cache, [] => ⟨[], cache, 0⟩
  | i, cache, recipient :: rest =>
    let fr := fetchCompanyInfo recipient.companyName 3 now cache (fetchOracle i)
    let settled :=
      match generateEmailContent recipient fr.value (genOracle i) with
      | .ok content => Except.ok (⟨recipient.email, content⟩ : GeneratedEmail)
      | .error e => Except.error e
    let tail := runPipelines now genOracle fetchOracle (i + 1) fr.cache rest
    ⟨settled :: tail.results, tail.cache, fr.calls + 1 + tail.calls⟩

/-- `Promise.all` over the settled recipient pipelines: the list of values
in input order if every promise fulfilled, otherwise a rejection. -/
def promiseAll : List (Except String GeneratedEmail) → Except String (List GeneratedEmail)
  | [] => .ok []
  | .error e :: _ => .error e
  | .ok v :: rest =>
    match promiseAll rest with
    | .ok vs => .ok (v :: vs)
    | .error e => .error e

/-- Result of the generate-emails controller: the HTTP response, the
cache after the request, and the total number of external calls issued. -/
structure GenResult where
  resp : HttpResponse
  cache : CacheStore
  calls : Nat

/-- Embedding of `generateEmailController` (emails.js lines 97-125).
Validation (lines 100-102): 400 with "Invalid request data" when
`recipients` is falsy or has length 0, before any external call or cache
access.  Otherwise all recipient pipelines run (lines 105-118); if every
one fulfils, the response is 200 carrying the generated emails in input
order (line 120); if any rejects, the catch on line 121 yields 500 with
"Failed to generate emails" and no email list is returned. -/
def generateEmailController (recipients : RecipientsField) (now : Nat)
    (cache : CacheStore) (genOracle : Nat → Option (List Char))
    (fetchOracle : Nat → List (Option JSVal)) : GenResult :=
  match recipients with
  | .undef => ⟨⟨400, .error "Invalid request data"⟩, cache, 0⟩
  | .arr rs =>
    if rs.length = 0 then ⟨⟨400, .error "Invalid request data"⟩, cache, 0⟩
    else
      let pr := runPipelines now genOracle fetchOracle 0 cache rs
      match promiseAll pr.results with
      | .ok emails => ⟨⟨200, .emails emails⟩, pr.cache, pr.calls⟩
      | .error _ => ⟨⟨500, .error "Failed to generate emails"⟩, pr.cache, pr.calls⟩

/-- Claim C2: when the company name misses the cache and the external call
fails on every attempt, `fetchCompanyInfo` with `retries = N` issues
exactly N + 1 external calls, returns null without mutating the cache,
and never throws (the embedding is a total function; failure degrades to
the null value). -/
theorem fetchCompanyInfo_all_failures :
    ∀ (companyName : String) (retries now : Nat) (cache : CacheStore)
      (oracle : List (Option JSVal)),
      cacheGet now cache ("company:" ++ companyName) = none →
      (∀ o ∈ oracle, o = none) →
      fetchCompanyInfo companyName retries now cache oracle
        = ⟨JSVal.null, cache, retries + 1⟩ := by
  intro companyName retries
  induction retries with
  | zero =>
    intro now cache oracle hget hall
    cases oracle with
    | nil => simp [fetchCompanyInfo, hget, optTruthy]
    | cons o tl =>
      have ho : o = none := hall o (by simp)
      subst ho
      simp [fetchCompanyInfo, hget, optTruthy]
  | succ r ih =>
    intro now cache oracle hget hall
    cases oracle with
    | nil =>
      have hrec := ih now cache [] hget (by intro o ho; cases ho)
      simp [fetchCompanyInfo, hget, optTruthy, hrec]
    | cons o tl =>
      have ho : o = none := hall o (by simp)
      subst ho
      have hrec := ih now cache tl hget (fun o ho => hall o (by simp [ho]))
      simp [fetchCompanyInfo, hget, optTruthy, hrec]

/-- Witness for claim C2 at a concrete input: an empty cache and four
failing external calls give four calls and a null result. -/
theorem fetchCompanyInfo_all_failures_witness :
    fetchCompanyInfo "Acme" 3 0 [] [none, none, none, none]
      = ⟨JSVal.null, [], 4⟩ :=
  fetchCompanyInfo_all_failures "Acme" 3 0 [] [none, none, none, none]
    (by decide) (by decide)

/-- Claim C7: a missing or undefined `recipients` field, or an empty
recipient list, yields HTTP 400 with body error "Invalid request data",
zero external calls, and an unchanged cache. -/
theorem generateEmails_invalid_request :
    ∀ (now : Nat) (cache : CacheStore) (genOracle : Nat → Option (List Char))
      (fetchOracle : Nat → List (Option JSVal)),
      generateEmailController .undef now cache genOracle fetchOracle
        = ⟨⟨400, .error "Invalid request data"⟩, cache, 0⟩
      ∧ generateEmailController (.arr []) now cache genOracle fetchOracle
        = ⟨⟨400, .error "Invalid request data"⟩, cache, 0⟩ := by
  intro now cache genOracle fetchOracle
  exact ⟨rfl, rfl⟩

/-- Claim C8: a missing `emails` field, or one that is not an array,
yields HTTP 400 with body error "Invalid email data format." and no
dispatched mail, while the empty array is accepted and acknowledged with
HTTP 200. -/
theorem sendEmails_validation :
    ∀ (env : Env) (transport : Nat → Bool),
      emailSending env .undef transport
        = ⟨⟨400, .error "Invalid email data format."⟩, []⟩
      ∧ (∀ v : JSVal, emailSending env (.nonList v) transport
          = ⟨⟨400, .error "Invalid email data format."⟩, []⟩)
      ∧ emailSending env (.arr []) transport
          = ⟨⟨200, .message "Emails sent successfully!"⟩, []⟩ := by
  intro env transport
  refine ⟨rfl, ?_, rfl⟩
  intro v
  simp [emailSending, EmailsField.isArray]

/-- Helper: when the cached value is truthy and unexpired, the fetch
returns it with no external call and an unchanged cache (lines 32-33). -/
theorem fetchCompanyInfo_hit_of_truthy (companyName : String) (retries now : Nat)
    (cache : CacheStore) (oracle : List (Option JSVal)) (v : JSVal)
    (hget : cacheGet now cache ("company:" ++ companyName) = some v)
    (hv : v.truthy = true) :
    fetchCompanyInfo companyName retries now cache oracle = ⟨v, cache, 0⟩ := by
  have hopt : optTruthy (cacheGet now cache ("company:" ++ companyName)) = true := by
    rw [hget]; simpa [optTruthy] using hv
  cases oracle with
  | nil => cases retries <;> simp [fetchCompanyInfo, hget, optTruthy, hv]
  | cons o tl =>
    cases o with
    | some ci => simp [fetchCompanyInfo, hget, optTruthy, hv]
    | none => cases retries <;> simp [fetchCompanyInfo, hget, optTruthy, hv]

/-- Helper: when the cache-hit test fails, every path of the fetch issues
at least one external call. -/
theorem fetchCompanyInfo_miss_calls_pos (companyName : String) (retries now : Nat)
    (cache : CacheStore) (oracle : List (Option JSVal))
    (hmiss : optTruthy (cacheGet now cache ("company:" ++ companyName)) = false) :
    1 ≤ (fetchCompanyInfo companyName retries now cache oracle).calls := by
  cases oracle with
  | nil => cases retries <;> simp [fetchCompanyInfo, hmiss]
  | cons o tl =>
    cases o with
    | some ci => simp [fetchCompanyInfo, hmiss]
    | none => cases retries <;> simp [fetchCompanyInfo, hmiss]

/-- Counterexample to claim C1 as stated: the cache holds a present,
unexpired entry for Acme whose value is the empty string (a falsy value,
as cached by a successful fetch whose response data was the empty
string), yet `fetchCompanyInfo` issues an external call (the cache-hit
test on line 33 is a truthiness test, not a presence test) and returns
the freshly fetched value instead of the cached one. -/
theorem fetchCompanyInfo_cache_hit_counterexample :
    cacheGet 0 [("company:Acme", JSVal.str [], 3600)] "company:Acme"
        = some (JSVal.str [])
    ∧ ¬ ((fetchCompanyInfo "Acme" 3 0 [("company:Acme", JSVal.str [], 3600)]
          [some (JSVal.num 7)]).calls = 0)
    ∧ ¬ ((fetchCompanyInfo "Acme" 3 0 [("company:Acme", JSVal.str [], 3600)]
          [some (JSVal.num 7)]).value = JSVal.str []) := by decide

/-- Claim C1 (amended: the cached entry must additionally be truthy):
a present, unexpired and truthy cache entry is returned immediately with
zero external calls and no retry, and in particular a second call within
the TTL window after a successful fetch that returned a truthy value
issues zero external calls and returns that cached value. -/
theorem fetchCompanyInfo_cache_hit :
    (∀ (companyName : String) (retries now : Nat) (cache : CacheStore)
       (oracle : List (Option JSVal)) (v : JSVal),
       cacheGet now cache ("company:" ++ companyName) = some v →
       v.truthy = true →
       fetchCompanyInfo companyName retries now cache oracle = ⟨v, cache, 0⟩)
    ∧ (∀ (companyName : String) (r1 r2 t1 t2 : Nat) (cache : CacheStore)
         (oracle2 rest : List (Option JSVal)) (v : JSVal),
         optTruthy (cacheGet t1 cache ("company:" ++ companyName)) = false →
         v.truthy = true →
         t2 ≤ t1 + 3600 →
         fetchCompanyInfo companyName r2 t2
             (fetchCompanyInfo companyName r1 t1 cache (some v :: rest)).cache
             oracle2
           = ⟨v, (fetchCompanyInfo companyName r1 t1 cache (some v :: rest)).cache,
               0⟩) := by
  constructor
  · exact fetchCompanyInfo_hit_of_truthy
  · intro companyName r1 r2 t1 t2 cache oracle2 rest v hmiss hv ht
    have h1 : fetchCompanyInfo companyName r1 t1 cache (some v :: rest)
        = ⟨v, cacheSet t1 cache ("company:" ++ companyName) v, 1⟩ := by
      simp [fetchCompanyInfo, hmiss]
    rw [h1]
    have hget2 : cacheGet t2 (cacheSet t1 cache ("company:" ++ companyName) v)
        ("company:" ++ companyName) = some v := by
      unfold cacheGet cacheSet
      rw [List.find?_cons_of_pos _ (by simp)]
      show (if t1 + 3600 < t2 then none else some v) = some v
      rw [if_neg (by omega)]
    exact fetchCompanyInfo_hit_of_truthy companyName r2 t2 _ oracle2 v hget2 hv

/-- Witness for claim C1 (amended) at concrete inputs: a truthy cached
number is served with zero calls, and a second fetch within the TTL after
a successful fetch of a truthy value is served from the cache. -/
theorem fetchCompanyInfo_cache_hit_witness :
    fetchCompanyInfo "Acme" 2 5 [("company:" ++ "Acme", JSVal.num 7, 10)] []
      = ⟨JSVal.num 7, [("company:" ++ "Acme", JSVal.num 7, 10)], 0⟩
    ∧ fetchCompanyInfo "Acme" 3 100
        (fetchCompanyInfo "Acme" 3 0 [] [some (JSVal.num 7)]).cache []
      = ⟨JSVal.num 7, (fetchCompanyInfo "Acme" 3 0 [] [some (JSVal.num 7)]).cache,
          0⟩ :=
  ⟨fetchCompanyInfo_cache_hit.1 "Acme" 2 5 [("company:" ++ "Acme", JSVal.num 7, 10)]
      [] (JSVal.num 7) (by decide) (by decide),
   fetchCompanyInfo_cache_hit.2 "Acme" 3 3 0 100 [] [] [] (JSVal.num 7)
      (by decide) (by decide) (by omega)⟩

/-- Claim C9: a falsy value stored under the company key is treated as a
miss: even though the entry is present and unexpired, the fetch issues at
least one new external call; and a successful fetch stores its response
data in the cache whatever the value is, falsy values included, so such
values are cached but never served. -/
theorem fetchCompanyInfo_falsy_never_served :
    (∀ (companyName : String) (retries now : Nat) (cache : CacheStore)
       (oracle : List (Option JSVal)) (v : JSVal),
       cacheGet now cache ("company:" ++ companyName) = some v →
       v.truthy = false →
       1 ≤ (fetchCompanyInfo companyName retries now cache oracle).calls)
    ∧ (∀ (companyName : String) (retries now : Nat) (cache : CacheStore)
         (rest : List (Option JSVal)) (w : JSVal),
         optTruthy (cacheGet now cache ("company:" ++ companyName)) = false →
         (fetchCompanyInfo companyName retries now cache (some w :: rest)).cache
           = cacheSet now cache ("company:" ++ companyName) w) := by
  constructor
  · intro companyName retries now cache oracle v hget hv
    apply fetchCompanyInfo_miss_calls_pos
    rw [hget]; simpa [optTruthy] using hv
  · intro companyName retries now cache rest w hmiss
    simp [fetchCompanyInfo, hmiss]

/-- Helper: splitting never yields an empty segment list (as in JS, where
`"".split("\n")` is `[""]`). -/
theorem splitOnNl_ne_nil : ∀ l : List Char, splitOnNl l ≠ []
  | [] => by simp [splitOnNl]
  | c :: rest => by
    by_cases hc : c = '\n' <;> simp [splitOnNl, hc]

/-- Helper: the first segment of the split is the longest newline-free
prefix of the content. -/
theorem splitOnNl_headD (l : List Char) :
    (splitOnNl l).headD [] = l.takeWhile (fun c => c != '\n') := by
  induction l with
  | nil => rfl
  | cons c rest ih =>
    by_cases hc : c = '\n'
    · simp [splitOnNl, hc]
    · rw [show splitOnNl (c :: rest)
          = (c :: (splitOnNl rest).headD []) :: (splitOnNl rest).tail by
            simp [splitOnNl, hc]]
      rw [List.takeWhile_cons_of_pos (by simp [hc])]
      rw [List.headD_cons, ih]

/-- Helper: prepending a character to the first segment prepends it to the
join. -/
theorem joinNl_cons (c : Char) (s : List Char) (t : List (List Char)) :
    joinNl ((c :: s) :: t) = c :: joinNl (s :: t) := by
  cases t with
  | nil => rfl
  | cons y ys => rfl

/-- Helper: joining the split with newlines reconstructs the content. -/
theorem joinNl_splitOnNl (l : List Char) : joinNl (splitOnNl l) = l := by
  induction l with
  | nil => rfl
  | cons c rest ih =>
    obtain ⟨s, ss, hS⟩ := List.exists_cons_of_ne_nil (splitOnNl_ne_nil rest)
    by_cases hc : c = '\n'
    · rw [show splitOnNl (c :: rest) = [] :: splitOnNl rest by simp [splitOnNl, hc]]
      rw [hS] at ih ⊢
      subst hc
      simpa [joinNl] using ih
    · rw [show splitOnNl (c :: rest)
          = (c :: (splitOnNl rest).headD []) :: (splitOnNl rest).tail by
            simp [splitOnNl, hc]]
      rw [hS]
      simp only [List.headD_cons, List.tail_cons, joinNl_cons]
      rw [← hS, ih]

/-- Helper: joining every segment after the first equals the content after
its first newline (and is empty when there is no newline). -/
theorem joinNl_splitOnNl_drop_one (l : List Char) :
    joinNl ((splitOnNl l).drop 1)
      = (l.dropWhile (fun c => c != '\n')).drop 1 := by
  induction l with
  | nil => rfl
  | cons c rest ih =>
    by_cases hc : c = '\n'
    · rw [show splitOnNl (c :: rest) = [] :: splitOnNl rest by simp [splitOnNl, hc]]
      rw [List.dropWhile_cons_of_neg (by simp [hc])]
      simpa using joinNl_splitOnNl rest
    · rw [show splitOnNl (c :: rest)
          = (c :: (splitOnNl rest).headD []) :: (splitOnNl rest).tail by
            simp [splitOnNl, hc]]
      rw [List.dropWhile_cons_of_pos (by simp [hc])]
      simpa [List.drop_one] using ih

/-- Claim C3: for every `GeneratedEmail` processed by the bulk sender, the
dispatched subject is the segment of the content before the first newline
(its longest newline-free prefix) and the dispatched body is the
remaining segments joined by newline, i.e. everything after the first
newline; content without a newline yields the whole content as subject
and an empty body. -/
theorem sendEmails_subject_body :
    ∀ e : GeneratedEmail,
      (mailOptionsOf e).subject = e.content.takeWhile (fun c => c != '\n')
      ∧ (mailOptionsOf e).text = (e.content.dropWhile (fun c => c != '\n')).drop 1
      ∧ ('\n' ∉ e.content →
          (mailOptionsOf e).subject = e.content ∧ (mailOptionsOf e).text = []) := by
  intro e
  have hs : (mailOptionsOf e).subject = e.content.takeWhile (fun c => c != '\n') :=
    splitOnNl_headD e.content
  have ht : (mailOptionsOf e).text
      = (e.content.dropWhile (fun c => c != '\n')).drop 1 :=
    joinNl_splitOnNl_drop_one e.content
  refine ⟨hs, ht, fun hn => ⟨?_, ?_⟩⟩
  · rw [hs]
    exact List.takeWhile_eq_self_iff.mpr (fun x hx => by
      simp only [bne_iff_ne, ne_eq]
      intro hx'
      exact hn (hx' ▸ hx))
  · rw [ht]
    have : e.content.dropWhile (fun c => c != '\n') = [] :=
      List.dropWhile_eq_nil_iff.mpr (fun x hx => by
        simp only [bne_iff_ne, ne_eq]
        intro hx'
        exact hn (hx' ▸ hx))
    simp [this]

/-- Witness for claim C3 at concrete contents, with and without a
newline. -/
theorem sendEmails_subject_body_witness :
    (mailOptionsOf ⟨"a@x.com", 'S' :: '\n' :: 'B' :: '\n' :: 'C' :: []⟩).subject
        = ('S' :: '\n' :: 'B' :: '\n' :: 'C' :: []).takeWhile (fun c => c != '\n')
    ∧ (mailOptionsOf ⟨"a@x.com", 'H' :: 'i' :: []⟩).subject = ('H' :: 'i' :: [])
    ∧ (mailOptionsOf ⟨"a@x.com", 'H' :: 'i' :: []⟩).text = [] :=
  ⟨(sendEmails_subject_body ⟨"a@x.com", 'S' :: '\n' :: 'B' :: '\n' :: 'C' :: []⟩).1,
   ((sendEmails_subject_body ⟨"a@x.com", 'H' :: 'i' :: []⟩).2.2 (by decide)).1,
   ((sendEmails_subject_body ⟨"a@x.com", 'H' :: 'i' :: []⟩).2.2 (by decide)).2⟩

/-- Helper: if the transport resolves for the first `i` of the remaining
emails and throws for the next one, the loop dispatches exactly those
`i + 1` emails, in input order, and reports failure. -/
theorem sendLoop_first_failure (transport : Nat → Bool) :
    ∀ (es : List GeneratedEmail) (k i : Nat), i < es.length →
      transport (k + i) = false →
      (∀ j, j < i → transport (k + j) = true) →
      sendLoop transport k es = ((es.take (i + 1)).map mailOptionsOf, false) := by
  intro es
  induction es with
  | nil =>
    intro k i hi hfail hok
    simp at hi
  | cons e rest ih =>
    intro k i hi hfail hok
    cases i with
    | zero =>
      have h0 : transport k = false := by simpa using hfail
      simp [sendLoop, h0]
    | succ m =>
      have h0 : transport k = true := by simpa using hok 0 (Nat.succ_pos m)
      have hfail' : transport (k + 1 + m) = false := by
        rw [show k + 1 + m = k + (m + 1) by omega]; exact hfail
      have hok' : ∀ j, j < m → transport (k + 1 + j) = true := by
        intro j hj
        rw [show k + 1 + j = k + (j + 1) by omega]
        exact hok (j + 1) (by omega)
      have hrec := ih (k + 1) m (by simpa using hi) hfail' hok'
      simp [sendLoop, h0, hrec]

/-- Helper: every dispatched mail option comes from one of the submitted
emails via `mailOptionsOf`. -/
theorem sendLoop_mem (transport : Nat → Bool) :
    ∀ (es : List GeneratedEmail) (k : Nat) (mo : MailOptions),
      mo ∈ (sendLoop transport k es).1 → ∃ e ∈ es, mo = mailOptionsOf e := by
  intro es
  induction es with
  | nil =>
    intro k mo h
    simp [sendLoop] at h
  | cons e rest ih =>
    intro k mo h
    simp only [sendLoop] at h
    by_cases htr : transport k
    · rw [if_pos htr] at h
      rcases List.mem_cons.mp h with h1 | h2
      · exact ⟨e, List.mem_cons_self e rest, h1⟩
      · obtain ⟨e', he', hmo⟩ := ih (k + 1) mo h2
        exact ⟨e', List.mem_cons_of_mem e he', hmo⟩
    · rw [if_neg htr] at h
      simp at h
      exact ⟨e, List.mem_cons_self e rest, h⟩

/-- Claim C4: emails are dispatched strictly sequentially in input order;
when the transport call at position `i` is the first to fail, exactly the
first `i + 1` emails are dispatched (the already-sent ones are not rolled
back, and nothing after position `i` is ever dispatched) and the
operation reports the generic HTTP 500 failure. -/
theorem sendEmails_halts_on_first_failure :
    ∀ (env : Env) (transport : Nat → Bool) (es : List GeneratedEmail) (i : Nat),
      i < es.length → transport i = false →
      (∀ j, j < i → transport j = true) →
      emailSending env (.arr es) transport
        = ⟨⟨500, .error "Failed to send emails."⟩,
           (es.take (i + 1)).map mailOptionsOf⟩ := by
  intro env transport es i hi hfail hok
  have hloop := sendLoop_first_failure transport es 0 i hi
    (by simpa using hfail) (fun j hj => by simpa using hok j hj)
  simp [emailSending, EmailsField.jsTruthy, EmailsField.isArray, hloop]

/-- Witness for claim C4 at a concrete input: three emails with the
transport failing on the second call dispatch exactly the first two and
yield HTTP 500. -/
theorem sendEmails_halts_on_first_failure_witness :
    emailSending ⟨none, none⟩
        (.arr [⟨"a@x.com", ['A']⟩, ⟨"b@x.com", ['B']⟩, ⟨"c@x.com", ['C']⟩])
        (fun n => n != 1)
      = ⟨⟨500, .error "Failed to send emails."⟩,
         [mailOptionsOf ⟨"a@x.com", ['A']⟩, mailOptionsOf ⟨"b@x.com", ['B']⟩]⟩ :=
  sendEmails_halts_on_first_failure ⟨none, none⟩ (fun n => n != 1)
    [⟨"a@x.com", ['A']⟩, ⟨"b@x.com", ['B']⟩, ⟨"c@x.com", ['C']⟩] 1
    (by decide) (by decide)
    (fun j hj => by
      have hj0 : j = 0 := by omega
      subst hj0; decide)

/-- Claim C10: every dispatched mail option has the hard-coded literal
"your-email@gmail.com" as its from-address, whatever the environment's
configured sender is, and the rest of the options come from the
corresponding submitted email via `mailOptionsOf` (to, subject and text
only). -/
theorem sendEmails_from_constant :
    ∀ (env : Env) (emails : EmailsField) (transport : Nat → Bool)
      (mo : MailOptions),
      mo ∈ (emailSending env emails transport).dispatched →
      mo.fromAddr = "your-email@gmail.com"
      ∧ ∃ es e, emails = .arr es ∧ e ∈ es ∧ mo = mailOptionsOf e := by
  intro env emails transport mo h
  cases emails with
  | undef => simp [emailSending] at h
  | nonList v => simp [emailSending, EmailsField.isArray] at h
  | arr es =>
    have h' : mo ∈ (sendLoop transport 0 es).1 := by
      by_cases hr : (sendLoop transport 0 es).2 <;>
        simpa [emailSending, EmailsField.jsTruthy, EmailsField.isArray, hr] using h
    obtain ⟨e, he, hmo⟩ := sendLoop_mem transport es 0 mo h'
    exact ⟨by rw [hmo]; rfl, es, e, rfl, he, hmo⟩

/-- Witness for claim C10 at a concrete input: the single dispatched mail
option carries the hard-coded from-address even though the environment
configures a different sender. -/
theorem sendEmails_from_constant_witness :
    (⟨"your-email@gmail.com", "a@x.com", ['S'], ['B']⟩ : MailOptions).fromAddr
        = "your-email@gmail.com"
    ∧ ∃ es e,
        (EmailsField.arr [⟨"a@x.com", 'S' :: '\n' :: 'B' :: []⟩] : EmailsField)
            = .arr es
        ∧ e ∈ es
        ∧ (⟨"your-email@gmail.com", "a@x.com", ['S'], ['B']⟩ : MailOptions)
            = mailOptionsOf e :=
  sendEmails_from_constant ⟨some "other-sender@example.com", some "hunter2"⟩
    (.arr [⟨"a@x.com", 'S' :: '\n' :: 'B' :: []⟩]) (fun _ => true)
    ⟨"your-email@gmail.com", "a@x.com", ['S'], ['B']⟩ (by decide)

/-- Helper: if some recipient's completion call fails, the join over the
settled pipelines rejects. -/
theorem runPipelines_failure (now : Nat) (genOracle : Nat → Option (List Char))
    (fetchOracle : Nat → List (Option JSVal)) :
    ∀ (rs : List Recipient) (i0 : Nat) (cache : CacheStore) (j : Nat),
      j < rs.length → genOracle (i0 + j) = none →
      ∃ msg,
        promiseAll (runPipelines now genOracle fetchOracle i0 cache rs).results
          = .error msg := by
  intro rs
  induction rs with
  | nil =>
    intro i0 cache j hj hnone
    simp at hj
  | cons r rest ih =>
    intro i0 cache j hj hnone
    cases j with
    | zero =>
      have hg : genOracle i0 = none := by simpa using hnone
      exact ⟨"Failed to generate email",
        by simp [runPipelines, generateEmailContent, hg, promiseAll]⟩
    | succ m =>
      have hnone' : genOracle (i0 + 1 + m) = none := by
        rw [show i0 + 1 + m = i0 + (m + 1) by omega]; exact hnone
      obtain ⟨msg, hmsg⟩ := ih (i0 + 1)
        (fetchCompanyInfo r.companyName 3 now cache (fetchOracle i0)).cache m
        (by simpa using hj) hnone'
      cases hg : genOracle i0 with
      | none =>
        exact ⟨"Failed to generate email",
          by simp [runPipelines, generateEmailContent, hg, promiseAll]⟩
      | some t =>
        exact ⟨msg,
          by simp [runPipelines, generateEmailContent, hg, promiseAll, hmsg]⟩

/-- Helper: if every recipient's completion call succeeds, the join
fulfils with one generated email per recipient, emails in input order. -/
theorem runPipelines_success (now : Nat) (genOracle : Nat → Option (List Char))
    (fetchOracle : Nat → List (Option JSVal)) :
    ∀ (rs : List Recipient) (i0 : Nat) (cache : CacheStore),
      (∀ j, j < rs.length → (genOracle (i0 + j)).isSome) →
      ∃ emails,
        promiseAll (runPipelines now genOracle fetchOracle i0 cache rs).results
          = .ok emails
        ∧ emails.map GeneratedEmail.email = rs.map Recipient.email := by
  intro rs
  induction rs with
  | nil =>
    intro i0 cache hall
    exact ⟨[], by simp [runPipelines, promiseAll], by simp⟩
  | cons r rest ih =>
    intro i0 cache hall
    have h0 : (genOracle i0).isSome := by simpa using hall 0 (Nat.succ_pos _)
    obtain ⟨t, ht⟩ := Option.isSome_iff_exists.mp h0
    have hall' : ∀ j, j < rest.length → (genOracle (i0 + 1 + j)).isSome := by
      intro j hj
      rw [show i0 + 1 + j = i0 + (j + 1) by omega]
      exact hall (j + 1) (by simpa using hj)
    obtain ⟨emails, hok, hmap⟩ := ih (i0 + 1)
      (fetchCompanyInfo r.companyName 3 now cache (fetchOracle i0)).cache hall'
    refine ⟨⟨r.email, jsTrim t⟩ :: emails, ?_, ?_⟩
    · simp [runPipelines, generateEmailContent, ht, promiseAll, hok]
    · simp [hmap]

/-- Claim C5: if any single recipient's fetch-then-generate pipeline
throws (the fetch itself never throws, so a throw is a failed completion
call), the whole batch fails: the response is HTTP 500 with the error
body "Failed to generate emails", and no partial list of generated emails
is returned. -/
theorem generateEmails_failure_aborts :
    ∀ (rs : List Recipient) (now : Nat) (cache : CacheStore)
      (genOracle : Nat → Option (List Char))
      (fetchOracle : Nat → List (Option JSVal)) (j : Nat),
      j < rs.length → genOracle j = none →
      (generateEmailController (.arr rs) now cache genOracle fetchOracle).resp
        = ⟨500, .error "Failed to generate emails"⟩ := by
  intro rs now cache genOracle fetchOracle j hj hnone
  obtain ⟨msg, hmsg⟩ := runPipelines_failure now genOracle fetchOracle rs 0 cache j
    hj (by simpa using hnone)
  have hne : ¬ rs.length = 0 := by omega
  simp only [generateEmailController]
  rw [if_neg hne]
  simp [hmsg]

/-- Witness for claim C5 at a concrete input: two recipients where the
second completion call fails yield HTTP 500 with the generic error. -/
theorem generateEmails_failure_aborts_witness :
    (generateEmailController
        (.arr [⟨"a@x.com", "Acme", "d1"⟩, ⟨"b@x.com", "Globex", "d2"⟩]) 0 []
        (fun i => if i = 0 then some ['h'] else none) (fun _ => [])).resp
      = ⟨500, .error "Failed to generate emails"⟩ :=
  generateEmails_failure_aborts
    [⟨"a@x.com", "Acme", "d1"⟩, ⟨"b@x.com", "Globex", "d2"⟩] 0 []
    (fun i => if i = 0 then some ['h'] else none) (fun _ => []) 1
    (by decide) (by decide)

/-- Claim C6: for a non-empty recipient list whose every pipeline
succeeds, the controller responds HTTP 200 with exactly one
email-content pair per recipient, in input order (same length, and the
email column equals the recipient emails in order). -/
theorem generateEmails_success_order :
    ∀ (rs : List Recipient) (now : Nat) (cache : CacheStore)
      (genOracle : Nat → Option (List Char))
      (fetchOracle : Nat → List (Option JSVal)),
      rs ≠ [] →
      (∀ j, j < rs.length → (genOracle j).isSome) →
      ∃ emails,
        (generateEmailController (.arr rs) now cache genOracle fetchOracle).resp
          = ⟨200, .emails emails⟩
        ∧ emails.length = rs.length
        ∧ emails.map GeneratedEmail.email = rs.map Recipient.email := by
  intro rs now cache genOracle fetchOracle hne hall
  obtain ⟨emails, hok, hmap⟩ := runPipelines_success now genOracle fetchOracle rs 0
    cache (by simpa using hall)
  have hlen : emails.length = rs.length := by
    have := congrArg List.length hmap
    simpa using this
  refine ⟨emails, ?_, hlen, hmap⟩
  have hne' : ¬ rs.length = 0 := by
    intro h
    exact hne (List.length_eq_zero.mp h)
  simp only [generateEmailController]
  rw [if_neg hne']
  simp [hok]

/-- Witness for claim C6 at a concrete input: two recipients with
successful pipelines yield HTTP 200 and one email per recipient in
order. -/
theorem generateEmails_success_order_witness :
    ∃ emails,
      (generateEmailController
          (.arr [⟨"a@x.com", "Acme", "d1"⟩, ⟨"b@x.com", "Globex", "d2"⟩]) 0 []
          (fun _ => some ['h', 'i']) (fun _ => [some (JSVal.num 7)])).resp
        = ⟨200, .emails emails⟩
      ∧ emails.length
          = ([⟨"a@x.com", "Acme", "d1"⟩,
              ⟨"b@x.com", "Globex", "d2"⟩] : List Recipient).length
      ∧ emails.map GeneratedEmail.email
          = ([⟨"a@x.com", "Acme", "d1"⟩,
              ⟨"b@x.com", "Globex", "d2"⟩] : List Recipient).map Recipient.email :=
  generateEmails_success_order
    [⟨"a@x.com", "Acme", "d1"⟩, ⟨"b@x.com", "Globex", "d2"⟩] 0 []
    (fun _ => some ['h', 'i']) (fun _ => [some (JSVal.num 7)])
    (by decide) (fun j hj => rfl)

/-- Witness for claim C9 at concrete inputs: a cached empty string is
present and unexpired yet a call is issued, and a fetched null value is
stored in the cache. -/
theorem fetchCompanyInfo_falsy_never_served_witness :
    1 ≤ (fetchCompanyInfo "Acme" 3 0 [("company:Acme", JSVal.str [], 3600)] []).calls
    ∧ (fetchCompanyInfo "Acme" 3 0 [] [some JSVal.null]).cache
        = cacheSet 0 [] ("company:" ++ "Acme") JSVal.null :=
  ⟨fetchCompanyInfo_falsy_never_served.1 "Acme" 3 0
      [("company:Acme", JSVal.str [], 3600)] [] (JSVal.str [])
      (by decide) (by decide),
   fetchCompanyInfo_falsy_never_served.2 "Acme" 3 0 [] [] JSVal.null (by decide)⟩
